import Mathlib

set_option maxHeartbeats 1000000

/- Shallow embedding of src/subdomain_enum.py (SubDomain-Enum recon pipeline).

   File contents are modelled as raw strings; the output directory is a
   map from path to optional content.  Python line iteration, str.strip,
   str.split(' ')[0], str.startswith and the `in` substring test are
   modelled character-exactly on ASCII data.  External tools are oracles:
   a stage's `subprocess.run` outcome is a `CmdResult` supplied to the
   model, and the list of argument vectors actually handed to
   `subprocess` is recorded. -/

/-- ASCII whitespace, modelling Python str.strip's default character class. -/
def isSpace (c : Char) : Bool :=
  c == ' ' || c == '\t' || c == '\n' || c == '\r' || c == '\x0b' || c == '\x0c'

/-- Python str.strip(): remove leading and trailing whitespace. -/
def pyStrip (s : String) : String :=
  String.mk (((s.data.dropWhile isSpace).reverse.dropWhile isSpace).reverse)

/-- Split raw content at newline characters (all segments, including a
trailing empty segment when the content ends in a newline). -/
def splitNl : List Char → List (List Char)
  | [] => [[]]
  | c :: cs =>
    if c = '\n' then [] :: splitNl cs
    else
      match splitNl cs with
      | [] => [[c]]
      | l :: ls => (c :: l) :: ls

/-- The lines of a file as Python's iteration / f.readlines() yields them,
with the line terminators removed.  `pyLines c` has exactly
`len(open(...).readlines())` elements for content `c`. -/
def pyLines (s : String) : List String :=
  let parts := (splitNl s.data).map String.mk
  if parts.getLast? = some "" then parts.dropLast else parts

/-- line.split(' ')[0] on a terminator-free line: the segment before the
first space character (the whole line when it has no space). -/
def splitSpHead (s : String) : String :=
  String.mk (s.data.takeWhile (fun c => c ≠ ' '))

/-- Python str.startswith. -/
def strStartsWith (s p : String) : Bool :=
  p.data.isPrefixOf s.data

/-- Python's `needle in hay` substring test. -/
def pyIn (needle : List Char) : List Char → Bool
  | [] => needle.isEmpty
  | c :: cs => needle.isPrefixOf (c :: cs) || pyIn needle cs

/-- The files of the output directory: path to raw content, `none` when
the file does not exist. -/
def FS : Type := String → Option String

def updateFS (fs : FS) (p : String) (c : String) : FS :=
  fun q => if q = p then some c else fs q

/-- os.path.join for the simple relative-name case used by the script. -/
def joinPath (d f : String) : String := d ++ "/" ++ f

def fsEmpty : FS := fun _ => none

/-- Outcome of one subprocess.run call (the Executor Adapter oracle). -/
structure CmdResult where
  returncode : Int
  stdout : String
  stderr : String

/-- What run_command writes for a zero exit: stripped stdout plus a
trailing newline when the stripped content is non-empty, else nothing
(the file is still created by the open call). -/
def writtenContent (stdout : String) : String :=
  if pyStrip stdout = "" then "" else pyStrip stdout ++ "\n"

/-- The file write of ReconPipeline.run_command lines 108-115. -/
def writeOut (o : Option String) (append : Bool) (stdout : String) (fs : FS) : FS :=
  match o with
  | none => fs
  | some p => updateFS fs p ((if append then (fs p).getD "" else "") ++ writtenContent stdout)

/-- ReconPipeline.run_command: dry run returns success untouched;
non-zero exit is failure with no write; zero exit writes the output file
(which then exists even for empty output). -/
def runCommandFS (dry : Bool) (res : CmdResult) (o : Option String) (append : Bool)
    (fs : FS) : Bool × FS :=
  if dry then (true, fs)
  else if res.returncode ≠ 0 then (false, fs)
  else (true, writeOut o append res.stdout fs)

/-- The non-blank result count run_command logs:
len([line for line in f if line.strip()]). -/
def isBlankLine (l : String) : Bool := pyStrip l == ""

def nonBlankCount (c : String) : Nat :=
  ((pyLines c).filter (fun l => !(isBlankLine l))).length

def blankLineCount (c : String) : Nat :=
  ((pyLines c).filter isBlankLine).length

/-- URLs kept from the httpx artifact: split each line at the first space,
strip, keep iff it begins with "http" (create_burp_file lines 145-151). -/
def keptFromHttpx (c : String) : List String :=
  ((pyLines c).map (fun l => pyStrip (splitSpHead l))).filter (fun u => strStartsWith u "http")

/-- URLs kept from the katana artifact: strip each line, keep iff it
begins with "http" (create_burp_file lines 154-159). -/
def keptFromKatana (c : String) : List String :=
  ((pyLines c).map pyStrip).filter (fun u => strStartsWith u "http")

/-- All kept URL strings, in processing order, duplicates included. -/
def keptUrls (httpxC katanaC : Option String) : List String :=
  (match httpxC with
   | some c => keptFromHttpx c
   | none => []) ++
  (match katanaC with
   | some c => keptFromKatana c
   | none => [])

/-- Adding one element to the set `unique_urls` (first occurrence kept). -/
def addToSet (s : List String) (u : String) : List String :=
  if u ∈ s then s else s ++ [u]

/-- The members of the set `unique_urls` built by create_burp_file. -/
def uniqueUrlsOf (httpxC katanaC : Option String) : List String :=
  (keptUrls httpxC katanaC).foldl addToSet []

/-- The write loop `for url in sorted(unique_urls): f.write(url + "\n")`. -/
def concatLines : List String → String
  | [] => ""
  | l :: ls => l ++ "\n" ++ concatLines ls

/-- ReconPipeline.create_burp_file: returns the updated directory and,
when not a dry run, the artifact path and set cardinality. -/
def create_burp_file (dry : Bool) (dir : String) (fs : FS) : FS × Option (String × Nat) :=
  if dry then (fs, none)
  else
    let urls := uniqueUrlsOf (fs (joinPath dir "httpx.txt")) (fs (joinPath dir "katana.txt"))
    let sortedUrls := List.insertionSort (· ≤ ·) urls
    (updateFS fs (joinPath dir "urls_for_burp.txt") (concatLines sortedUrls),
     some (joinPath dir "urls_for_burp.txt", urls.length))

/-- The six well-known artifacts of generate_summary, key and filename. -/
def summaryFiles : List (String × String) :=
  [("subdomains", "subfinder.txt"), ("resolved", "dnsx.txt"), ("ports", "naabu.txt"),
   ("http_services", "httpx.txt"), ("endpoints", "katana.txt"),
   ("burp_import", "urls_for_burp.txt")]

/-- The per-artifact counts recorded in summary.json:
len(f.readlines()) when the file exists, else 0. -/
def summaryStats (dir : String) (fs : FS) : List (String × Nat) :=
  summaryFiles.map (fun kf =>
    (kf.1, match fs (joinPath dir kf.2) with
           | some c => (pyLines c).length
           | none => 0))

/-- Rendering of the summary record (the JSON serialization itself is
abstracted; target, timestamp and the exact stats are carried). -/
def summaryContent (target ts : String) (stats : List (String × Nat)) : String :=
  target ++ "|" ++ ts ++ "|" ++ concatLines (stats.map (fun kn => kn.1 ++ "=" ++ toString kn.2))

/-- ReconPipeline.generate_summary. -/
def generate_summary (dry : Bool) (target ts dir : String) (fs : FS) : FS :=
  if dry then fs
  else updateFS fs (joinPath dir "summary.json") (summaryContent target ts (summaryStats dir fs))

/-- urls = [line.strip() for line in f.readlines() if line.strip()]. -/
def llmUrls (c : String) : List String :=
  ((pyLines c).map pyStrip).filter (fun l => l ≠ "")

/-- Rendering of json.dumps(urls[:200], indent=2) (string escaping of the
entries is abstracted; the entry list and its order are carried). -/
def renderJsonList (urls : List String) : String :=
  "[\n" ++ String.join ((urls.map (fun u => "  \"" ++ u ++ "\"")).intersperse ",\n") ++ "\n]"

/-- The fixed instruction template of run_llm_advisory. -/
def promptTemplate (urls : List String) : String :=
  "Analyze these URLs and find high-risk endpoints:\n" ++ renderJsonList urls

/-- ReconPipeline.run_llm_advisory. -/
def run_llm_advisory (dry : Bool) (dir : String) (fs : FS) : FS :=
  if dry then fs
  else
    match fs (joinPath dir "katana.txt") with
    | none => fs
    | some c =>
      let urls := llmUrls c
      if urls = [] then fs
      else updateFS fs (joinPath dir "llm_prompt.txt") (promptTemplate (urls.take 200))

/-- Execute lines 219-222: append "\n" + domain + "\n" iff the domain
does not occur as a substring of the artifact's content. -/
def ensureRootDomain (d c : String) : String :=
  if pyIn d.data c.data then c else c ++ "\n" ++ d ++ "\n"

/-- The root-domain append step guarded by domain presence, non-dry mode
and existence of the subfinder artifact. -/
def rootAppend (dry : Bool) (domain : Option String) (dir : String) (fs : FS) : FS :=
  match domain with
  | some d =>
    if dry = false ∧ (fs (joinPath dir "subfinder.txt")).isSome = true then
      updateFS fs (joinPath dir "subfinder.txt")
        (ensureRootDomain d ((fs (joinPath dir "subfinder.txt")).getD ""))
    else fs
  | none => fs

/-- The Subdomain-Enum stage of execute (run_command on subfinder,
then — only on success — the root-domain append). -/
def subfinderStep (dry : Bool) (domain : Option String) (dir : String) (res : CmdResult)
    (fs : FS) : Bool × FS :=
  let s := runCommandFS dry res (some (joinPath dir "subfinder.txt")) false fs
  if s.1 = false then (false, s.2)
  else (true, rootAppend dry domain dir s.2)

/-- The katana-input cleaning loop of execute lines 241-246. -/
def cleanedContent (c : String) : String :=
  concatLines (((pyLines c).map (fun l => pyStrip (splitSpHead l))).filter (fun u => u ≠ ""))

/-- One oracle outcome per external stage tool, in pipeline order. -/
structure StageResults where
  subfinder : CmdResult
  dnsx : CmdResult
  naabu : CmdResult
  httpx : CmdResult
  katana : CmdResult

def stageRes (r : StageResults) : Nat → CmdResult
  | 0 => r.subfinder
  | 1 => r.dnsx
  | 2 => r.naabu
  | 3 => r.httpx
  | _ => r.katana

def DEFAULT_PORTS : String := "80,443,8080,8443,8000,8008,8888"

def stageNames : List String := ["Subfinder", "DNSx", "Naabu", "HTTPx", "Katana"]

def stageArtifacts : List String :=
  ["subfinder.txt", "dnsx.txt", "naabu.txt", "httpx.txt", "katana.txt"]

/-- Result of the stage portion of ReconPipeline.execute: the final
directory, which run_command steps were reached, which argument vectors
were handed to subprocess, and whether the run reached the final
"Recon Chain Complete" report (the run outcome). -/
structure PipeOut where
  fs : FS
  ran : List String
  procs : List (List String)
  completed : Bool

/-- ReconPipeline.execute after tool checking: the five stages, the
root-domain append, the katana input cleaning, then create_burp_file,
generate_summary and (on request) run_llm_advisory. -/
def executeSteps (dry llm : Bool) (domain listFile proxy : Option String)
    (bins : String → String) (dir ts : String) (r : StageResults) (fs0 : FS) : PipeOut :=
  let subOut := joinPath dir "subfinder.txt"
  let dnsxOut := joinPath dir "dnsx.txt"
  let naabuOut := joinPath dir "naabu.txt"
  let httpxOut := joinPath dir "httpx.txt"
  let katanaOut := joinPath dir "katana.txt"
  let cmdSub := [bins "subfinder", "-all", "-o", subOut] ++
    (match domain with
     | some d => ["-d", d]
     | none =>
       match listFile with
       | some lf => ["-dL", lf]
       | none => [])
  let p1 : List (List String) := if dry then [] else [cmdSub]
  let s1 := subfinderStep dry domain dir r.subfinder fs0
  if s1.1 = false then ⟨s1.2, ["Subfinder"], p1, false⟩ else
  let fs1 := s1.2
  let cmdDnsx := [bins "dnsx", "-l", subOut, "-o", dnsxOut]
  let p2 := p1 ++ (if dry then [] else [cmdDnsx])
  let s2 := runCommandFS dry r.dnsx (some dnsxOut) false fs1
  if s2.1 = false then ⟨s2.2, ["Subfinder", "DNSx"], p2, false⟩ else
  let fs2 := s2.2
  let cmdNaabu := [bins "naabu", "-l", dnsxOut, "-p", DEFAULT_PORTS, "-o", naabuOut]
  let p3 := p2 ++ (if dry then [] else [cmdNaabu])
  let s3 := runCommandFS dry r.naabu (some naabuOut) false fs2
  if s3.1 = false then ⟨s3.2, ["Subfinder", "DNSx", "Naabu"], p3, false⟩ else
  let fs3 := s3.2
  let cmdHttpx := [bins "httpx", "-l", naabuOut, "-title", "-tech-detect", "-status-code",
      "-o", httpxOut] ++
    (match proxy with
     | some p => ["-http-proxy", p]
     | none => [])
  let p4 := p3 ++ (if dry then [] else [cmdHttpx])
  let s4 := runCommandFS dry r.httpx (some httpxOut) false fs3
  if s4.1 = false then ⟨s4.2, ["Subfinder", "DNSx", "Naabu", "HTTPx"], p4, false⟩ else
  let fs4 := s4.2
  let cleanOut := joinPath dir "katana_input_clean.txt"
  let prep : String × FS :=
    if dry = false ∧ (fs4 httpxOut).isSome = true then
      (cleanOut, updateFS fs4 cleanOut (cleanedContent ((fs4 httpxOut).getD "")))
    else (httpxOut, fs4)
  let cmdKatana := [bins "katana", "-list", prep.1, "-o", katanaOut, "-jc", "-kf", "all",
      "-c", "10", "-d", "2"] ++
    (match proxy with
     | some p => ["-proxy", p]
     | none => [])
  let p5 := p4 ++ (if dry then [] else [cmdKatana])
  let s5 := runCommandFS dry r.katana (some katanaOut) false prep.2
  if s5.1 = false then ⟨s5.2, ["Subfinder", "DNSx", "Naabu", "HTTPx", "Katana"], p5, false⟩ else
  let fs5 := s5.2
  let bp := if dry then (fs5, (none : Option (String × Nat))) else create_burp_file dry dir fs5
  let target :=
    match domain with
    | some d => d
    | none => listFile.getD ""
  let fs7 := generate_summary dry target ts dir bp.1
  let fs8 := if llm then run_llm_advisory dry dir fs7 else fs7
  ⟨fs8, ["Subfinder", "DNSx", "Naabu", "HTTPx", "Katana"], p5, true⟩

/-- The incidental collaborators of get_binary_path / check_tools as
oracles: whether `go` is runnable and what `go env GOBIN` printed, the
home directory, os.path.exists, shutil.which and whether the httpx
version probe succeeds. -/
structure SysEnv where
  goOk : Bool
  gobin : String
  home : String
  pathExists : String → Bool
  which : String → Option String
  httpxVerOk : String → Bool

/-- The candidate-path loop of get_binary_path, recording the httpx
"-version" probes it spawns. -/
def findBin (env : SysEnv) (tool : String) : List String → String × List (List String)
  | [] => ((env.which tool).getD tool, [])
  | p :: ps =>
    if env.pathExists p then
      if tool = "httpx" then
        if env.httpxVerOk p then (p, [[p, "-version"]])
        else
          let rest := findBin env tool ps
          (rest.1, [p, "-version"] :: rest.2)
      else (p, [])
    else findBin env tool ps

/-- ReconPipeline.get_binary_path: the resolved path and the external
processes the resolution itself spawned. -/
def get_binary_path (env : SysEnv) (tool : String) : String × List (List String) :=
  let base := [env.home ++ "/go/bin/" ++ tool, "/usr/local/bin/" ++ tool, "/usr/bin/" ++ tool]
  let paths := if env.goOk = true ∧ env.gobin ≠ "" then (env.gobin ++ "/" ++ tool) :: base else base
  let goProcs : List (List String) := if env.goOk then [["go", "env", "GOBIN"]] else []
  let r := findBin env tool paths
  (r.1, goProcs ++ r.2)

def REQUIRED_TOOLS : List String := ["subfinder", "dnsx", "naabu", "httpx", "katana"]

/-- The per-tool missing test of check_tools lines 73-78. -/
def toolMissing (env : SysEnv) (tool : String) : Bool :=
  let p := (get_binary_path env tool).1
  if p = tool then (env.which tool).isNone else !(env.pathExists p)

/-- ReconPipeline.check_tools: whether all tools were found, plus the
processes spawned while locating them. -/
def check_tools (env : SysEnv) : Bool × List (List String) :=
  ((REQUIRED_TOOLS.filter (fun t => toolMissing env t)).isEmpty,
   (REQUIRED_TOOLS.map (fun t => (get_binary_path env t).2)).flatten)

/-- Whole-process outcome: final directory, steps reached, processes
spawned, the Python process's exit code, and whether the run completed. -/
structure RunResult where
  fs : FS
  ran : List String
  procs : List (List String)
  exitCode : Nat
  completed : Bool

/-- main + ReconPipeline.execute: check_tools exits with code 1 when a
tool is missing; otherwise the stages run; the process then exits 0
whether or not a stage failed (execute returns None either way). -/
def pipelineRun (env : SysEnv) (dry llm : Bool) (domain listFile proxy : Option String)
    (dir ts : String) (r : StageResults) (fs0 : FS) : RunResult :=
  let ck := check_tools env
  if ck.1 = false then ⟨fs0, [], ck.2, 1, false⟩
  else
    let binProcs := (REQUIRED_TOOLS.map (fun t => (get_binary_path env t).2)).flatten
    let bins := fun t => (get_binary_path env t).1
    let out := executeSteps dry llm domain listFile proxy bins dir ts r fs0
    ⟨out.fs, out.ran, ck.2 ++ binProcs ++ out.procs, 0, out.completed⟩

/-- Claimed leading whitespace-delimited token of a line (this follows
the spec's words, for comparison with the source's space-only split). -/
def leadingWsToken (line : String) : String :=
  String.mk ((line.data.dropWhile isSpace).takeWhile (fun c => isSpace c = false))

/-- Artifacts belonging to stages after stage k (0-based among the five
external stages), together with the post-processing artifacts. -/
def laterArtifacts (k : Nat) : List String :=
  stageArtifacts.drop (k + 1) ++
  (if k < 4 then ["katana_input_clean.txt"] else []) ++
  ["urls_for_burp.txt", "summary.json", "llm_prompt.txt"]

def cmdOk : CmdResult := ⟨0, "", ""⟩

def envAll : SysEnv := ⟨false, "", "/root", fun _ => true, fun _ => none, fun _ => true⟩

def envGo : SysEnv := ⟨true, "", "/root", fun _ => true, fun _ => none, fun _ => true⟩

def resFailDnsx : StageResults := ⟨cmdOk, ⟨1, "", "boom"⟩, cmdOk, cmdOk, cmdOk⟩

def resAllOk : StageResults := ⟨cmdOk, cmdOk, cmdOk, cmdOk, cmdOk⟩

/- ------------------------------------------------------------------ -/
/- Helper lemmas                                                      -/
/- ------------------------------------------------------------------ -/

theorem strDataAppend (a b : String) : (a ++ b).data = a.data ++ b.data := rfl

theorem strMkData (s : String) : String.mk s.data = s := rfl

theorem updateFS_self (fs : FS) (p c : String) : updateFS fs p c p = some c := if_pos rfl

theorem updateFS_ne (fs : FS) (p c : String) {q : String} (h : q ≠ p) :
    updateFS fs p c q = fs q := if_neg h

theorem joinPath_eq_iff (d f g : String) : joinPath d f = joinPath d g ↔ f = g := by
  constructor
  · intro h
    have hd := congrArg String.data h
    simp only [joinPath, strDataAppend] at hd
    have := List.append_cancel_left hd
    calc f = String.mk f.data := rfl
    _ = String.mk g.data := by rw [this]
    _ = g := rfl
  · intro h
    rw [h]

theorem rootAppend_ne (dry : Bool) (dom : Option String) (dir : String) (fs : FS)
    {q : String} (h : q ≠ joinPath dir "subfinder.txt") :
    rootAppend dry dom dir fs q = fs q := by
  cases dom with
  | none => simp [rootAppend]
  | some d =>
    simp only [rootAppend]
    by_cases hc : dry = false ∧ (fs (joinPath dir "subfinder.txt")).isSome = true
    · rw [if_pos hc]
      exact updateFS_ne _ _ _ h
    · rw [if_neg hc]

theorem splitNl_ne_nil (s : List Char) : splitNl s ≠ [] := by
  cases s with
  | nil => simp [splitNl]
  | cons c cs =>
    unfold splitNl
    by_cases h : c = '\n'
    · simp [h]
    · rw [if_neg h]
      cases hs : splitNl cs <;> simp

theorem splitNl_no_nl (s : List Char) : ∀ l ∈ splitNl s, '\n' ∉ l := by
  induction s with
  | nil =>
    intro l hl
    simp [splitNl] at hl
    simp [hl]
  | cons c cs ih =>
    intro l hl
    unfold splitNl at hl
    by_cases h : c = '\n'
    · rw [if_pos h] at hl
      rcases List.mem_cons.mp hl with h1 | h1
      · simp [h1]
      · exact ih l h1
    · rw [if_neg h] at hl
      cases hs : splitNl cs with
      | nil => exact absurd hs (splitNl_ne_nil cs)
      | cons l' ls =>
        rw [hs] at hl
        rcases List.mem_cons.mp hl with h1 | h1
        · subst h1
          intro hmem
          rcases List.mem_cons.mp hmem with h2 | h2
          · exact h h2.symm
          · exact ih l' (hs ▸ List.mem_cons_self l' ls) h2
        · exact ih l (hs ▸ List.mem_cons_of_mem l' h1)

theorem splitNl_append_cons (l rest : List Char) (h : '\n' ∉ l) :
    splitNl (l ++ '\n' :: rest) = l :: splitNl rest := by
  induction l with
  | nil => simp [splitNl]
  | cons c cs ih =>
    have hc : c ≠ '\n' := fun hcc => h (hcc ▸ List.mem_cons_self c cs)
    have hcs : '\n' ∉ cs := fun hm => h (List.mem_cons_of_mem c hm)
    have ih' := ih hcs
    generalize hz : splitNl rest = zs at ih' ⊢
    show splitNl (c :: (cs ++ '\n' :: rest)) = (c :: cs) :: zs
    unfold splitNl
    rw [if_neg hc, ih']

theorem splitNl_append_front (xs ys : List Char) :
    ∃ pre, pre ≠ [] ∧ splitNl (xs ++ '\n' :: ys) = pre ++ splitNl ys := by
  induction xs with
  | nil =>
    refine ⟨[[]], by simp, ?_⟩
    simp [splitNl]
  | cons c cs ih =>
    rcases ih with ⟨pre, hpre, hsp⟩
    by_cases hc : c = '\n'
    · refine ⟨[] :: pre, by simp, ?_⟩
      generalize hz : splitNl ys = zs at hsp ⊢
      show splitNl (c :: (cs ++ '\n' :: ys)) = _
      unfold splitNl
      rw [if_pos hc, hsp]
      simp
    · cases pre with
      | nil => exact absurd rfl hpre
      | cons p ps =>
        refine ⟨(c :: p) :: ps, by simp, ?_⟩
        generalize hz : splitNl ys = zs at hsp ⊢
        show splitNl (c :: (cs ++ '\n' :: ys)) = _
        unfold splitNl
        rw [if_neg hc, hsp]
        simp

theorem mem_of_mem_dropWhileCh (p : Char → Bool) (l : List Char) (c : Char)
    (h : c ∈ l.dropWhile p) : c ∈ l := by
  induction l with
  | nil => simp [List.dropWhile] at h
  | cons a as ih =>
    rw [List.dropWhile_cons] at h
    by_cases hp : p a = true
    · simp only [hp, if_true] at h
      exact List.mem_cons_of_mem a (ih h)
    · simp only [hp] at h
      simpa using h

theorem mem_of_mem_takeWhileCh (p : Char → Bool) (l : List Char) (c : Char)
    (h : c ∈ l.takeWhile p) : c ∈ l := by
  induction l with
  | nil => simp [List.takeWhile] at h
  | cons a as ih =>
    rw [List.takeWhile_cons] at h
    by_cases hp : p a = true
    · simp only [hp, if_true] at h
      rcases List.mem_cons.mp h with h1 | h1
      · exact h1 ▸ List.mem_cons_self a as
      · exact List.mem_cons_of_mem a (ih h1)
    · simp only [hp] at h
      simp at h

theorem mem_of_mem_pyStrip (s : String) (c : Char) (h : c ∈ (pyStrip s).data) : c ∈ s.data := by
  unfold pyStrip at h
  have h1 : c ∈ (s.data.dropWhile isSpace).reverse.dropWhile isSpace := by
    have := List.mem_reverse.mp (show c ∈ _ from h)
    exact this
  have h2 : c ∈ (s.data.dropWhile isSpace).reverse := mem_of_mem_dropWhileCh _ _ _ h1
  exact mem_of_mem_dropWhileCh _ _ _ (List.mem_reverse.mp h2)


theorem mem_of_mem_splitSpHead (s : String) (c : Char) (h : c ∈ (splitSpHead s).data) :
    c ∈ s.data := by
  unfold splitSpHead at h
  rw [strMkData] at h
  exact mem_of_mem_takeWhileCh _ _ _ h

theorem mem_pyLines_no_nl (s : String) (l : String) (h : l ∈ pyLines s) : '\n' ∉ l.data := by
  unfold pyLines at h
  simp only at h
  have hmem : l ∈ (splitNl s.data).map String.mk := by
    by_cases hc : ((splitNl s.data).map String.mk).getLast? = some ""
    · rw [if_pos hc] at h
      exact (List.dropLast_sublist _).mem h
    · rw [if_neg hc] at h
      exact h
  rcases List.mem_map.mp hmem with ⟨l', hl', rfl⟩
  exact splitNl_no_nl s.data l' hl'

theorem concatLines_cons_data (l : String) (ls : List String) :
    (concatLines (l :: ls)).data = l.data ++ '\n' :: (concatLines ls).data := by
  show (l ++ "\n" ++ concatLines ls).data = _
  rw [strDataAppend, strDataAppend]
  simp

theorem splitNl_concatLines (ls : List String) (h : ∀ l ∈ ls, '\n' ∉ l.data) :
    splitNl (concatLines ls).data = (ls.map String.data) ++ [[]] := by
  induction ls with
  | nil => simp [concatLines, splitNl]
  | cons l ls ih =>
    rw [concatLines_cons_data, splitNl_append_cons _ _ (h l (List.mem_cons_self l ls)),
      ih (fun x hx => h x (List.mem_cons_of_mem l hx))]
    simp

theorem pyLines_concatLines (ls : List String) (h : ∀ l ∈ ls, '\n' ∉ l.data) :
    pyLines (concatLines ls) = ls := by
  unfold pyLines
  rw [splitNl_concatLines ls h]
  have hmap : ((ls.map String.data) ++ [[]]).map String.mk = ls ++ [""] := by
    rw [List.map_append, List.map_map]
    have : (String.mk ∘ String.data) = id := funext fun s => rfl
    rw [this, List.map_id]
    rfl
  simp only [hmap]
  rw [if_pos (List.getLast?_concat ls), List.dropLast_concat]

theorem pyLines_single (l : String) (h : '\n' ∉ l.data) : pyLines (l ++ "\n") = [l] := by
  have := pyLines_concatLines [l] (by simpa using h)
  simpa [concatLines] using this

theorem mem_foldl_addToSet (l : List String) :
    ∀ acc u, u ∈ l.foldl addToSet acc ↔ u ∈ acc ∨ u ∈ l := by
  induction l with
  | nil => simp
  | cons a t ih =>
    intro acc u
    rw [List.foldl_cons, ih]
    unfold addToSet
    by_cases h : a ∈ acc
    · rw [if_pos h]
      constructor
      · rintro (h1 | h1)
        · exact Or.inl h1
        · exact Or.inr (List.mem_cons_of_mem a h1)
      · rintro (h1 | h1)
        · exact Or.inl h1
        · rcases List.mem_cons.mp h1 with h2 | h2
          · exact Or.inl (h2 ▸ h)
          · exact Or.inr h2
    · rw [if_neg h]
      simp only [List.mem_append, List.mem_singleton, List.mem_cons]
      tauto

theorem nodup_foldl_addToSet (l : List String) :
    ∀ acc, acc.Nodup → (l.foldl addToSet acc).Nodup := by
  induction l with
  | nil => exact fun acc h => h
  | cons a t ih =>
    intro acc hacc
    rw [List.foldl_cons]
    apply ih
    unfold addToSet
    by_cases h : a ∈ acc
    · rwa [if_pos h]
    · rw [if_neg h]
      simp [List.nodup_append, hacc, h]

theorem mem_uniqueUrlsOf (h k : Option String) (u : String) :
    u ∈ uniqueUrlsOf h k ↔ u ∈ keptUrls h k := by
  unfold uniqueUrlsOf
  rw [mem_foldl_addToSet]
  simp

theorem nodup_uniqueUrlsOf (h k : Option String) : (uniqueUrlsOf h k).Nodup :=
  nodup_foldl_addToSet _ _ List.nodup_nil

theorem kept_no_nl (h k : Option String) (u : String) (hu : u ∈ keptUrls h k) :
    '\n' ∉ u.data := by
  unfold keptUrls at hu
  have main : ∀ (c : String), u ∈ keptFromHttpx c ∨ u ∈ keptFromKatana c → '\n' ∉ u.data := by
    intro c hc
    rcases hc with hc | hc
    · unfold keptFromHttpx at hc
      rcases List.mem_map.mp (List.mem_of_mem_filter hc) with ⟨l, hl, rfl⟩
      intro hnl
      exact mem_pyLines_no_nl c l hl
        (mem_of_mem_splitSpHead l _ (mem_of_mem_pyStrip _ _ hnl))
    · unfold keptFromKatana at hc
      rcases List.mem_map.mp (List.mem_of_mem_filter hc) with ⟨l, hl, rfl⟩
      intro hnl
      exact mem_pyLines_no_nl c l hl (mem_of_mem_pyStrip _ _ hnl)
  rcases List.mem_append.mp hu with hu | hu
  · cases h with
    | none => simp at hu
    | some c => exact main c (Or.inl hu)
  · cases k with
    | none => simp at hu
    | some c => exact main c (Or.inr hu)

theorem filterPartitionLength (p : String → Bool) (l : List String) :
    (l.filter (fun a => !(p a))).length + (l.filter p).length = l.length := by
  induction l with
  | nil => rfl
  | cons a t ih =>
    by_cases h : p a = true
    · simp [List.filter_cons, h, ← ih]
      omega
    · have h' : p a = false := by simpa using h
      simp [List.filter_cons, h', ← ih]
      omega

theorem pairwise_lt_of_sorted_le_nodup {l : List String}
    (hs : l.Sorted (· ≤ ·)) (hn : l.Nodup) : l.Sorted (· < ·) := by
  unfold List.Sorted at hs ⊢
  exact (hs.and hn).imp (fun h => lt_of_le_of_ne h.1 h.2)


/- ------------------------------------------------------------------ -/
/- Claim theorems                                                     -/
/- ------------------------------------------------------------------ -/

/-- Claim C7: for a non-dry stage with a declared output file, if the
tool exits with code zero then after run_command the output file exists
(possibly empty), even when the trimmed stdout is empty. -/
theorem c7_output_file_exists (res : CmdResult) (out : String) (append : Bool) (fs : FS)
    (h : res.returncode = 0) :
    (∃ c, (runCommandFS false res (some out) append fs).2 out = some c) ∧
    (pyStrip res.stdout = "" → append = false →
      (runCommandFS false res (some out) append fs).2 out = some "") := by
  constructor
  · refine ⟨(if append then (fs out).getD "" else "") ++ writtenContent res.stdout, ?_⟩
    simp [runCommandFS, h, writeOut, updateFS_self]
  · intro hstrip happ
    subst happ
    simp [runCommandFS, h, writeOut, updateFS_self, writtenContent, hstrip]

/-- Claim C7 witness: a successful stage with empty stdout leaves an
empty but present output file. -/
theorem c7_output_file_exists_witness :
    (runCommandFS false ⟨0, "", ""⟩ (some "o/x.txt") false fsEmpty).2 "o/x.txt" = some "" :=
  (c7_output_file_exists ⟨0, "", ""⟩ "o/x.txt" false fsEmpty rfl).2 rfl rfl

/-- Claim C10: in non-dry mode create_burp_file always writes the
consolidated artifact; with both inputs absent it writes an empty file
and reports a count of zero. -/
theorem c10_burp_always_written (dir : String) (fs : FS) :
    (∃ c, (create_burp_file false dir fs).1 (joinPath dir "urls_for_burp.txt") = some c) ∧
    (fs (joinPath dir "httpx.txt") = none → fs (joinPath dir "katana.txt") = none →
      (create_burp_file false dir fs).1 (joinPath dir "urls_for_burp.txt") = some "" ∧
      (create_burp_file false dir fs).2 = some (joinPath dir "urls_for_burp.txt", 0)) := by
  constructor
  · refine ⟨concatLines (List.insertionSort (· ≤ ·)
      (uniqueUrlsOf (fs (joinPath dir "httpx.txt")) (fs (joinPath dir "katana.txt")))), ?_⟩
    simp [create_burp_file, updateFS_self]
  · intro h1 h2
    have hu : uniqueUrlsOf (fs (joinPath dir "httpx.txt")) (fs (joinPath dir "katana.txt")) = [] := by
      rw [h1, h2]
      rfl
    constructor
    · simp [create_burp_file, hu, updateFS_self]
      rfl
    · simp [create_burp_file, hu]

/-- Claim C10 witness: with an empty directory the consolidated artifact
is created empty with count zero. -/
theorem c10_burp_always_written_witness :
    (create_burp_file false "o" fsEmpty).1 (joinPath "o" "urls_for_burp.txt") = some "" ∧
    (create_burp_file false "o" fsEmpty).2 = some (joinPath "o" "urls_for_burp.txt", 0) :=
  (c10_burp_always_written "o" fsEmpty).2 rfl rfl

/-- Claim C8: for each of the six artifact names, the summary records the
raw total line count (blank lines included: non-blank plus blank counts)
of the file when it exists, else zero. -/
theorem c8_summary_counts (dir : String) (fs : FS) (k fn : String)
    (hm : (k, fn) ∈ summaryFiles) :
    (fs (joinPath dir fn) = none → (k, 0) ∈ summaryStats dir fs) ∧
    (∀ c, fs (joinPath dir fn) = some c →
      (k, nonBlankCount c + blankLineCount c) ∈ summaryStats dir fs ∧
      nonBlankCount c + blankLineCount c = (pyLines c).length) := by
  constructor
  · intro h
    have hmem := List.mem_map_of_mem
      (fun kf : String × String =>
        (kf.1, match fs (joinPath dir kf.2) with
               | some c => (pyLines c).length
               | none => 0)) hm
    simpa [summaryStats, h] using hmem
  · intro c hc
    have hlen : nonBlankCount c + blankLineCount c = (pyLines c).length :=
      filterPartitionLength isBlankLine (pyLines c)
    refine ⟨?_, hlen⟩
    have hmem := List.mem_map_of_mem
      (fun kf : String × String =>
        (kf.1, match fs (joinPath dir kf.2) with
               | some c => (pyLines c).length
               | none => 0)) hm
    simpa [summaryStats, hc, hlen] using hmem

/-- Claim C8 witness: for a katana artifact with two non-blank and one
blank line the summary records 3, the total line count. -/
theorem c8_summary_counts_witness :
    ("endpoints", nonBlankCount "a\n\nb\n" + blankLineCount "a\n\nb\n") ∈
      summaryStats "o" (fun p => if p = joinPath "o" "katana.txt" then some "a\n\nb\n" else none) ∧
    nonBlankCount "a\n\nb\n" + blankLineCount "a\n\nb\n" = (pyLines "a\n\nb\n").length :=
  (c8_summary_counts "o" (fun p => if p = joinPath "o" "katana.txt" then some "a\n\nb\n" else none)
    "endpoints" "katana.txt" (by decide)).2 "a\n\nb\n" (by decide)

/-- Claim C9: the advisory generator writes nothing when the crawl
artifact is absent or has no non-blank line; otherwise the prompt embeds
the first min(200, n) non-blank (stripped) lines in file order, never
more than 200. -/
theorem c9_prompt_bounded (dir : String) (fs : FS) :
    (fs (joinPath dir "katana.txt") = none → run_llm_advisory false dir fs = fs) ∧
    (∀ c, fs (joinPath dir "katana.txt") = some c →
      (llmUrls c = [] → run_llm_advisory false dir fs = fs) ∧
      (llmUrls c ≠ [] →
        (run_llm_advisory false dir fs) (joinPath dir "llm_prompt.txt") =
          some (promptTemplate ((llmUrls c).take 200)) ∧
        ((llmUrls c).take 200).length = min 200 (llmUrls c).length ∧
        ((llmUrls c).take 200).length ≤ 200 ∧
        (llmUrls c).take 200 ++ (llmUrls c).drop 200 = llmUrls c)) := by
  constructor
  · intro h
    simp [run_llm_advisory, h]
  · intro c hc
    constructor
    · intro hu
      simp [run_llm_advisory, hc, hu]
    · intro hu
      refine ⟨?_, List.length_take 200 (llmUrls c), ?_, List.take_append_drop 200 (llmUrls c)⟩
      · simp [run_llm_advisory, hc, hu, updateFS_self]
      · rw [List.length_take]
        exact min_le_left 200 _

/-- Claim C9 witness: one non-blank crawl line yields a prompt with that
single entry. -/
theorem c9_prompt_bounded_witness :
    (run_llm_advisory false "o"
        (fun p => if p = joinPath "o" "katana.txt" then some "http://a\n" else none))
        (joinPath "o" "llm_prompt.txt") =
      some (promptTemplate ((llmUrls "http://a\n").take 200)) ∧
    ((llmUrls "http://a\n").take 200).length = min 200 (llmUrls "http://a\n").length ∧
    ((llmUrls "http://a\n").take 200).length ≤ 200 ∧
    (llmUrls "http://a\n").take 200 ++ (llmUrls "http://a\n").drop 200 = llmUrls "http://a\n" :=
  ((c9_prompt_bounded "o"
    (fun p => if p = joinPath "o" "katana.txt" then some "http://a\n" else none)).2
    "http://a\n" (by decide)).2 (by decide)


/-- Claim C2: for any combination of httpx/katana artifact contents, the
consolidated artifact's lines are strictly ascending (hence duplicate
free) and its line set is exactly the set of kept URL strings. -/
theorem c2_burp_sorted_dedup (dir : String) (fs : FS) :
    ∃ c, (create_burp_file false dir fs).1 (joinPath dir "urls_for_burp.txt") = some c ∧
      (pyLines c).Nodup ∧
      List.Sorted (· < ·) (pyLines c) ∧
      ∀ u, u ∈ pyLines c ↔
        u ∈ keptUrls (fs (joinPath dir "httpx.txt")) (fs (joinPath dir "katana.txt")) := by
  set h := fs (joinPath dir "httpx.txt") with hh
  set k := fs (joinPath dir "katana.txt") with hk
  have hperm := List.perm_insertionSort (α := String) (· ≤ ·) (uniqueUrlsOf h k)
  have hnl : ∀ l ∈ List.insertionSort (· ≤ ·) (uniqueUrlsOf h k), '\n' ∉ l.data := by
    intro l hl
    exact kept_no_nl h k l ((mem_uniqueUrlsOf h k l).mp (hperm.subset hl))
  have hround := pyLines_concatLines _ hnl
  have hnodup : (List.insertionSort (· ≤ ·) (uniqueUrlsOf h k)).Nodup :=
    hperm.symm.nodup (nodup_uniqueUrlsOf h k)
  have hsorted : List.Sorted (· ≤ ·) (List.insertionSort (· ≤ ·) (uniqueUrlsOf h k)) :=
    List.sorted_insertionSort (· ≤ ·) (uniqueUrlsOf h k)
  refine ⟨concatLines (List.insertionSort (· ≤ ·) (uniqueUrlsOf h k)), ?_, ?_, ?_, ?_⟩
  · simp [create_burp_file, updateFS_self, ← hh, ← hk]
  · rw [hround]
    exact hnodup
  · rw [hround]
    exact pairwise_lt_of_sorted_le_nodup hsorted hnodup
  · intro u
    rw [hround, hperm.mem_iff, mem_uniqueUrlsOf]

/-- Claim C4 counterexample: the extraction splits on the space character
only, not on whitespace: on the tab-separated line "http://x\t[200]" the
code keeps the whole line, while the leading whitespace-delimited token
is "http://x". -/
theorem c4_counterexample :
    uniqueUrlsOf (some "http://x\t[200]\n") none = ["http://x\t[200]"] ∧
    leadingWsToken "http://x\t[200]" = "http://x" ∧
    ("http://x\t[200]" : String) ≠ "http://x" := by
  refine ⟨by decide, by decide, by decide⟩

/-- Claim C4 (amended): for an httpx line the code keeps the portion
before the first space character, whitespace-stripped, iff it begins
with "http"; for a katana line, the stripped line iff it begins with
"http"; the example line yields exactly "https://a.example". -/
theorem c4_extraction (line u : String) (h : '\n' ∉ line.data) :
    ((u ∈ uniqueUrlsOf (some (line ++ "\n")) none ↔
        (u = pyStrip (splitSpHead line) ∧ strStartsWith u "http" = true)) ∧
     (u ∈ uniqueUrlsOf none (some (line ++ "\n")) ↔
        (u = pyStrip line ∧ strStartsWith u "http" = true))) ∧
    uniqueUrlsOf (some "https://a.example [200] [nginx]\n") none = ["https://a.example"] := by
  have hl := pyLines_single line h
  refine ⟨⟨?_, ?_⟩, by decide⟩
  · rw [mem_uniqueUrlsOf]
    simp only [keptUrls, keptFromHttpx, hl]
    simp [List.mem_filter]
  · rw [mem_uniqueUrlsOf]
    simp only [keptUrls, keptFromKatana, hl]
    simp [List.mem_filter]

/-- Claim C4 witness: the documented example line. -/
theorem c4_extraction_witness :
    (("https://a.example" : String) ∈
        uniqueUrlsOf (some ("https://a.example [200] [nginx]" ++ "\n")) none ↔
      (("https://a.example" : String) =
          pyStrip (splitSpHead "https://a.example [200] [nginx]") ∧
        strStartsWith "https://a.example" "http" = true)) ∧
    uniqueUrlsOf (some "https://a.example [200] [nginx]\n") none = ["https://a.example"] :=
  ⟨((c4_extraction "https://a.example [200] [nginx]" "https://a.example" (by decide)).1).1,
   ((c4_extraction "https://a.example [200] [nginx]" "https://a.example" (by decide)).2)⟩


theorem isPrefixOf_self_append (l t : List Char) : l.isPrefixOf (l ++ t) = true := by
  induction l with
  | nil => cases t <;> rfl
  | cons c cs ih => simp [List.isPrefixOf, ih]

theorem pyIn_append (needle hay1 hay2 : List Char) (h : needle.isPrefixOf hay2 = true) :
    pyIn needle (hay1 ++ hay2) = true := by
  induction hay1 with
  | nil =>
    cases hay2 with
    | nil =>
      cases needle with
      | nil => rfl
      | cons c cs => simp [List.isPrefixOf] at h
    | cons c cs => simp [pyIn, h]
  | cons c cs ih => simp [pyIn, ih]

theorem newlineData : ("\n" : String).data = ['\n'] := rfl

theorem ensureRoot_contains (d c : String) :
    pyIn d.data (ensureRootDomain d c).data = true := by
  unfold ensureRootDomain
  by_cases h : pyIn d.data c.data = true
  · rw [if_pos h]
    exact h
  · rw [if_neg h]
    have hdata : (c ++ "\n" ++ d ++ "\n").data = (c.data ++ ['\n']) ++ (d.data ++ ['\n']) := by
      simp [strDataAppend, newlineData]
    rw [hdata]
    exact pyIn_append _ _ _ (isPrefixOf_self_append d.data ['\n'])

theorem ensureRoot_line (d c : String) (hnl : '\n' ∉ d.data)
    (h : pyIn d.data c.data = false) : d ∈ pyLines (ensureRootDomain d c) := by
  unfold ensureRootDomain
  rw [if_neg (by simp [h])]
  have hdata : (c ++ "\n" ++ d ++ "\n").data = c.data ++ '\n' :: (d.data ++ ['\n']) := by
    simp [strDataAppend, newlineData]
  obtain ⟨pre, hpre, hsp⟩ := splitNl_append_front c.data (d.data ++ ['\n'])
  have h2 : splitNl (d.data ++ ['\n']) = [d.data, []] := by
    have := splitNl_append_cons d.data [] hnl
    simpa [splitNl] using this
  rw [h2] at hsp
  unfold pyLines
  rw [hdata, hsp]
  have hmap : (pre ++ [d.data, []]).map String.mk = (pre.map String.mk ++ [d]) ++ [""] := by
    simp [strMkData]
  simp only [hmap]
  rw [if_pos (List.getLast?_concat _), List.dropLast_concat]
  simp

/-- Claim C1 counterexample: with a successful enumeration reporting only
"www.example.com" for target domain "example.com", the domain occurs as
a substring, so nothing is appended and "example.com" is not one of the
artifact's lines — the claim's line-level guarantee fails. -/
theorem c1_counterexample :
    (subfinderStep false (some "example.com") "o" ⟨0, "www.example.com", ""⟩ fsEmpty).2
        (joinPath "o" "subfinder.txt") = some "www.example.com\n" ∧
    ("example.com" : String) ∉ pyLines "www.example.com\n" ∧
    pyIn ("example.com" : String).data ("www.example.com\n" : String).data = true := by
  refine ⟨by decide, by decide, by decide⟩

/-- Claim C1 (amended): after a successful non-dry Subdomain-Enum stage
for single domain D, the artifact contains D as a substring of its
contents; when D was absent as a substring of the written content it is
appended and then also occurs as one of the artifact's lines. -/
theorem c1_root_domain (d dir : String) (res : CmdResult) (fs0 : FS)
    (hrc : res.returncode = 0) (hnl : '\n' ∉ d.data) (_hne : d ≠ "") :
    ∃ c₀, (subfinderStep false (some d) dir res fs0).2 (joinPath dir "subfinder.txt") =
        some (ensureRootDomain d c₀) ∧
      pyIn d.data (ensureRootDomain d c₀).data = true ∧
      (pyIn d.data c₀.data = false → d ∈ pyLines (ensureRootDomain d c₀)) := by
  refine ⟨writtenContent res.stdout, ?_, ensureRoot_contains d _,
    fun h => ensureRoot_line d _ hnl h⟩
  simp [subfinderStep, runCommandFS, hrc, writeOut, rootAppend, updateFS_self]

/-- Claim C1 witness: for a run whose tool output does not mention the
domain at all, the domain is appended and is one of the lines. -/
theorem c1_root_domain_witness :
    ∃ c₀, (subfinderStep false (some "example.com") "o" ⟨0, "other.net", ""⟩ fsEmpty).2
        (joinPath "o" "subfinder.txt") = some (ensureRootDomain "example.com" c₀) ∧
      pyIn ("example.com" : String).data (ensureRootDomain "example.com" c₀).data = true ∧
      (pyIn ("example.com" : String).data c₀.data = false →
        ("example.com" : String) ∈ pyLines (ensureRootDomain "example.com" c₀)) :=
  c1_root_domain "example.com" "o" ⟨0, "other.net", ""⟩ fsEmpty rfl (by decide) (by decide)


theorem joinPath_ne (d : String) {f g : String} (h : f ≠ g) : joinPath d f ≠ joinPath d g :=
  fun hq => h ((joinPath_eq_iff d f g).mp hq)

theorem executeSteps_dry (llm : Bool) (domain listFile proxy : Option String)
    (bins : String → String) (dir ts : String) (r : StageResults) (fs0 : FS) :
    executeSteps true llm domain listFile proxy bins dir ts r fs0 =
      ⟨fs0, stageNames, [], true⟩ := by
  cases domain <;>
    simp [executeSteps, subfinderStep, runCommandFS, rootAppend, create_burp_file,
      generate_summary, run_llm_advisory, stageNames, ite_self]

theorem findBin_procs (env : SysEnv) (tool : String) (ps : List String) :
    ∀ p ∈ (findBin env tool ps).2, ∃ q, p = [q, "-version"] := by
  induction ps with
  | nil => simp [findBin]
  | cons a as ih =>
    intro p hp
    unfold findBin at hp
    by_cases he : env.pathExists a = true
    · rw [if_pos he] at hp
      by_cases ht : tool = "httpx"
      · rw [if_pos ht] at hp
        by_cases hv : env.httpxVerOk a = true
        · rw [if_pos hv] at hp
          simp at hp
          exact ⟨a, hp⟩
        · rw [if_neg hv] at hp
          simp only at hp
          rcases List.mem_cons.mp hp with h1 | h1
          · exact ⟨a, h1⟩
          · exact ih p h1
      · rw [if_neg ht] at hp
        simp at hp
    · rw [if_neg he] at hp
      exact ih p hp

theorem get_binary_path_procs (env : SysEnv) (tool : String) :
    ∀ p ∈ (get_binary_path env tool).2,
      p = ["go", "env", "GOBIN"] ∨ ∃ q, p = [q, "-version"] := by
  intro p hp
  simp only [get_binary_path] at hp
  rcases List.mem_append.mp hp with h | h
  · left
    by_cases hg : env.goOk = true
    · rw [if_pos hg] at h
      simpa using h
    · rw [if_neg hg] at h
      simp at h
  · exact Or.inr (findBin_procs env tool _ p h)

theorem locator_procs_shape (env : SysEnv) (p : List String)
    (hp : p ∈ (REQUIRED_TOOLS.map (fun t => (get_binary_path env t).2)).flatten) :
    p = ["go", "env", "GOBIN"] ∨ ∃ q, p = [q, "-version"] := by
  rcases List.mem_flatten.mp hp with ⟨l, hl, hpl⟩
  rcases List.mem_map.mp hl with ⟨t, _, rfl⟩
  exact get_binary_path_procs env t p hpl

/-- Claim C3: if a stage fails (first failure at index k, non-dry run),
no later stage's run_command is reached, the artifacts of later stages
and the consolidated/summary/prompt files are untouched, and the run
does not complete. -/
theorem c3_short_circuit (llm : Bool) (domain listFile proxy : Option String)
    (bins : String → String) (dir ts : String) (r : StageResults) (fs0 : FS) (k : Nat)
    (hk : k < 5) (hfail : (stageRes r k).returncode ≠ 0)
    (hprev : ∀ j, j < k → (stageRes r j).returncode = 0) :
    (executeSteps false llm domain listFile proxy bins dir ts r fs0).completed = false ∧
    (executeSteps false llm domain listFile proxy bins dir ts r fs0).ran =
      stageNames.take (k + 1) ∧
    ∀ f ∈ laterArtifacts k,
      (executeSteps false llm domain listFile proxy bins dir ts r fs0).fs (joinPath dir f) =
        fs0 (joinPath dir f) := by
  interval_cases k
  · have h0 : r.subfinder.returncode ≠ 0 := by simpa [stageRes] using hfail
    refine ⟨?_, ?_, ?_⟩
    · simp [executeSteps, subfinderStep, runCommandFS, h0]
    · simp [executeSteps, subfinderStep, runCommandFS, h0, stageNames]
    · intro f hf
      simp [executeSteps, subfinderStep, runCommandFS, h0]
  · have h0 : r.subfinder.returncode = 0 := by simpa [stageRes] using hprev 0 (by omega)
    have h1 : r.dnsx.returncode ≠ 0 := by simpa [stageRes] using hfail
    refine ⟨?_, ?_, ?_⟩
    · simp [executeSteps, subfinderStep, runCommandFS, h0, h1]
    · simp [executeSteps, subfinderStep, runCommandFS, h0, h1, stageNames]
    · intro f hf
      simp only [laterArtifacts, stageArtifacts] at hf
      simp at hf
      have hne0 : f ≠ "subfinder.txt" := by
        rcases hf with rfl | rfl | rfl | rfl | rfl | rfl | rfl <;> decide
      simp [executeSteps, subfinderStep, runCommandFS, writeOut, h0, h1,
        rootAppend_ne _ _ _ _ (joinPath_ne dir hne0),
        updateFS_ne _ _ _ (joinPath_ne dir hne0)]
  · have h0 : r.subfinder.returncode = 0 := by simpa [stageRes] using hprev 0 (by omega)
    have h1 : r.dnsx.returncode = 0 := by simpa [stageRes] using hprev 1 (by omega)
    have h2 : r.naabu.returncode ≠ 0 := by simpa [stageRes] using hfail
    refine ⟨?_, ?_, ?_⟩
    · simp [executeSteps, subfinderStep, runCommandFS, h0, h1, h2]
    · simp [executeSteps, subfinderStep, runCommandFS, h0, h1, h2, stageNames]
    · intro f hf
      simp only [laterArtifacts, stageArtifacts] at hf
      simp at hf
      have hne0 : f ≠ "subfinder.txt" := by
        rcases hf with rfl | rfl | rfl | rfl | rfl | rfl <;> decide
      have hne1 : f ≠ "dnsx.txt" := by
        rcases hf with rfl | rfl | rfl | rfl | rfl | rfl <;> decide
      simp [executeSteps, subfinderStep, runCommandFS, writeOut, h0, h1, h2,
        rootAppend_ne _ _ _ _ (joinPath_ne dir hne0),
        updateFS_ne _ _ _ (joinPath_ne dir hne0),
        updateFS_ne _ _ _ (joinPath_ne dir hne1)]
  · have h0 : r.subfinder.returncode = 0 := by simpa [stageRes] using hprev 0 (by omega)
    have h1 : r.dnsx.returncode = 0 := by simpa [stageRes] using hprev 1 (by omega)
    have h2 : r.naabu.returncode = 0 := by simpa [stageRes] using hprev 2 (by omega)
    have h3 : r.httpx.returncode ≠ 0 := by simpa [stageRes] using hfail
    refine ⟨?_, ?_, ?_⟩
    · simp [executeSteps, subfinderStep, runCommandFS, h0, h1, h2, h3]
    · simp [executeSteps, subfinderStep, runCommandFS, h0, h1, h2, h3, stageNames]
    · intro f hf
      simp only [laterArtifacts, stageArtifacts] at hf
      simp at hf
      have hne0 : f ≠ "subfinder.txt" := by
        rcases hf with rfl | rfl | rfl | rfl | rfl <;> decide
      have hne1 : f ≠ "dnsx.txt" := by
        rcases hf with rfl | rfl | rfl | rfl | rfl <;> decide
      have hne2 : f ≠ "naabu.txt" := by
        rcases hf with rfl | rfl | rfl | rfl | rfl <;> decide
      simp [executeSteps, subfinderStep, runCommandFS, writeOut, h0, h1, h2, h3,
        rootAppend_ne _ _ _ _ (joinPath_ne dir hne0),
        updateFS_ne _ _ _ (joinPath_ne dir hne0),
        updateFS_ne _ _ _ (joinPath_ne dir hne1),
        updateFS_ne _ _ _ (joinPath_ne dir hne2)]
  · have h0 : r.subfinder.returncode = 0 := by simpa [stageRes] using hprev 0 (by omega)
    have h1 : r.dnsx.returncode = 0 := by simpa [stageRes] using hprev 1 (by omega)
    have h2 : r.naabu.returncode = 0 := by simpa [stageRes] using hprev 2 (by omega)
    have h3 : r.httpx.returncode = 0 := by simpa [stageRes] using hprev 3 (by omega)
    have h4 : r.katana.returncode ≠ 0 := by simpa [stageRes] using hfail
    refine ⟨?_, ?_, ?_⟩
    · simp [executeSteps, subfinderStep, runCommandFS, writeOut, updateFS_self,
        h0, h1, h2, h3, h4]
    · simp [executeSteps, subfinderStep, runCommandFS, writeOut, updateFS_self,
        h0, h1, h2, h3, h4, stageNames]
    · intro f hf
      simp only [laterArtifacts, stageArtifacts] at hf
      simp at hf
      have hne0 : f ≠ "subfinder.txt" := by rcases hf with rfl | rfl | rfl <;> decide
      have hne1 : f ≠ "dnsx.txt" := by rcases hf with rfl | rfl | rfl <;> decide
      have hne2 : f ≠ "naabu.txt" := by rcases hf with rfl | rfl | rfl <;> decide
      have hne3 : f ≠ "httpx.txt" := by rcases hf with rfl | rfl | rfl <;> decide
      have hne4 : f ≠ "katana_input_clean.txt" := by rcases hf with rfl | rfl | rfl <;> decide
      simp [executeSteps, subfinderStep, runCommandFS, writeOut, updateFS_self,
        h0, h1, h2, h3, h4,
        rootAppend_ne _ _ _ _ (joinPath_ne dir hne0),
        updateFS_ne _ _ _ (joinPath_ne dir hne0),
        updateFS_ne _ _ _ (joinPath_ne dir hne1),
        updateFS_ne _ _ _ (joinPath_ne dir hne2),
        updateFS_ne _ _ _ (joinPath_ne dir hne3),
        updateFS_ne _ _ _ (joinPath_ne dir hne4)]

/-- Claim C3 witness: with DNSx failing, only the first two stages are
reached and naabu's artifact stays untouched. -/
theorem c3_short_circuit_witness :
    (executeSteps false false (some "example.com") none none (fun t => t) "o" "t"
        resFailDnsx fsEmpty).completed = false ∧
    (executeSteps false false (some "example.com") none none (fun t => t) "o" "t"
        resFailDnsx fsEmpty).ran = stageNames.take 2 ∧
    (executeSteps false false (some "example.com") none none (fun t => t) "o" "t"
        resFailDnsx fsEmpty).fs (joinPath "o" "naabu.txt") =
      fsEmpty (joinPath "o" "naabu.txt") := by
  have h := c3_short_circuit false (some "example.com") none none (fun t => t) "o" "t"
    resFailDnsx fsEmpty 1 (by omega) (by decide)
    (by
      intro j hj
      interval_cases j
      rfl)
  exact ⟨h.1, h.2.1, h.2.2 "naabu.txt" (by decide)⟩


/-- Claim C5 (amended): in dry-run mode no file of the output directory
is created or modified and no stage command is executed — the only
processes spawned are the tool locator's auxiliary queries (go env GOBIN
and the httpx -version probe); every stage is previewed and the run
reports synthetic success when the tool check passes. -/
theorem c5_dry_run (env : SysEnv) (llm : Bool) (domain listFile proxy : Option String)
    (dir ts : String) (r : StageResults) (fs0 : FS) :
    (pipelineRun env true llm domain listFile proxy dir ts r fs0).fs = fs0 ∧
    (∀ p ∈ (pipelineRun env true llm domain listFile proxy dir ts r fs0).procs,
      p = ["go", "env", "GOBIN"] ∨ ∃ q, p = [q, "-version"]) ∧
    ((check_tools env).1 = true →
      (pipelineRun env true llm domain listFile proxy dir ts r fs0).ran = stageNames ∧
      (pipelineRun env true llm domain listFile proxy dir ts r fs0).completed = true) := by
  cases hck : (check_tools env).1 with
  | false =>
    refine ⟨?_, ?_, ?_⟩
    · simp only [pipelineRun]
      rw [if_pos hck]
    · intro p hp
      simp only [pipelineRun] at hp
      rw [if_pos hck] at hp
      exact locator_procs_shape env p hp
    · intro h
      simp at h
  | true =>
    have hckne : ¬((check_tools env).1 = false) := by simp [hck]
    refine ⟨?_, ?_, ?_⟩
    · simp only [pipelineRun]
      rw [if_neg hckne, executeSteps_dry]
    · intro p hp
      simp only [pipelineRun] at hp
      rw [if_neg hckne, executeSteps_dry] at hp
      simp only [List.append_nil] at hp
      rcases List.mem_append.mp hp with h | h
      · exact locator_procs_shape env p h
      · exact locator_procs_shape env p h
    · intro _
      simp only [pipelineRun]
      rw [if_neg hckne, executeSteps_dry]
      exact ⟨rfl, rfl⟩

/-- Claim C5 counterexample: even in dry-run mode the program spawns an
external process — the tool locator runs "go env GOBIN". -/
theorem c5_counterexample :
    (["go", "env", "GOBIN"] : List String) ∈
      (pipelineRun envGo true false (some "example.com") none none "o" "t"
        resAllOk fsEmpty).procs := by
  decide

/-- Claim C5 witness: a concrete dry run leaves the directory untouched,
the spawned processes are locator queries only, and all five stages
report synthetic success. -/
theorem c5_dry_run_witness :
    (pipelineRun envGo true false (some "example.com") none none "o" "t"
        resAllOk fsEmpty).fs = fsEmpty ∧
    ((["go", "env", "GOBIN"] : List String) = ["go", "env", "GOBIN"] ∨
      ∃ q, (["go", "env", "GOBIN"] : List String) = [q, "-version"]) ∧
    (pipelineRun envGo true false (some "example.com") none none "o" "t"
        resAllOk fsEmpty).ran = stageNames ∧
    (pipelineRun envGo true false (some "example.com") none none "o" "t"
        resAllOk fsEmpty).completed = true := by
  have h := c5_dry_run envGo false (some "example.com") none none "o" "t" resAllOk fsEmpty
  exact ⟨h.1, h.2.1 ["go", "env", "GOBIN"] (by decide),
    (h.2.2 (by decide)).1, (h.2.2 (by decide)).2⟩

/-- Claim C6 (amended): the process exits with code 1 when a required
tool cannot be located; otherwise it exits with code 0 — including when
a pipeline stage fails — and when every stage succeeds the run completes
its post-processing. -/
theorem c6_exit_codes (env : SysEnv) (llm : Bool) (domain listFile proxy : Option String)
    (dir ts : String) (r : StageResults) (fs0 : FS) :
    ((check_tools env).1 = false →
      (pipelineRun env false llm domain listFile proxy dir ts r fs0).exitCode = 1) ∧
    ((check_tools env).1 = true →
      (pipelineRun env false llm domain listFile proxy dir ts r fs0).exitCode = 0 ∧
      ((∀ j, j < 5 → (stageRes r j).returncode = 0) →
        (pipelineRun env false llm domain listFile proxy dir ts r fs0).completed = true)) := by
  constructor
  · intro h
    simp only [pipelineRun]
    rw [if_pos h]
  · intro h
    have hne : ¬((check_tools env).1 = false) := by simp [h]
    constructor
    · simp only [pipelineRun]
      rw [if_neg hne]
    · intro hall
      have h0 : r.subfinder.returncode = 0 := by simpa [stageRes] using hall 0 (by omega)
      have h1 : r.dnsx.returncode = 0 := by simpa [stageRes] using hall 1 (by omega)
      have h2 : r.naabu.returncode = 0 := by simpa [stageRes] using hall 2 (by omega)
      have h3 : r.httpx.returncode = 0 := by simpa [stageRes] using hall 3 (by omega)
      have h4 : r.katana.returncode = 0 := by simpa [stageRes] using hall 4 (by omega)
      simp only [pipelineRun]
      rw [if_neg hne]
      simp [executeSteps, subfinderStep, runCommandFS, writeOut, updateFS_self,
        h0, h1, h2, h3, h4]

/-- Claim C6 counterexample: with all tools present and the DNSx stage
failing, the pipeline halts (no completion) yet the process exits with
code 0, not a non-zero code. -/
theorem c6_counterexample :
    resFailDnsx.dnsx.returncode ≠ 0 ∧
    (check_tools envAll).1 = true ∧
    (pipelineRun envAll false false (some "example.com") none none "o" "t"
        resFailDnsx fsEmpty).completed = false ∧
    (pipelineRun envAll false false (some "example.com") none none "o" "t"
        resFailDnsx fsEmpty).exitCode = 0 := by
  refine ⟨by decide, by decide, by decide, by decide⟩

/-- Claim C6 witness: a fully successful run exits 0 and completes. -/
theorem c6_exit_codes_witness :
    (pipelineRun envAll false false (some "example.com") none none "o" "t"
        resAllOk fsEmpty).exitCode = 0 ∧
    (pipelineRun envAll false false (some "example.com") none none "o" "t"
        resAllOk fsEmpty).completed = true := by
  have h := (c6_exit_codes envAll false (some "example.com") none none "o" "t"
    resAllOk fsEmpty).2 (by decide)
  exact ⟨h.1, h.2 (by
    intro j hj
    interval_cases j <;> rfl)⟩

